import Mathlib

/-!
Shallow embedding of the zpp_throwing failure-propagation engine
(src/zpp_throwing.h) and proofs about its catch-dispatch semantics.

Modeling conventions:
* Addresses of C++ objects are modeled as `Int`; pointer adjustment
  functions (`erased_static_cast`) are arbitrary `Int → Int` functions.
* Error-domain identities (addresses of the static `err_domain<...>`
  objects) are modeled as `Nat`.  The two internal placeholder domains,
  `err_domain<rethrow_error>` and `err_domain<throwing_exception>`,
  are distinct static objects in the source, hence distinct constants here.
* The type information arrays built by `detail::type_information` are
  modeled as a tree of direct bases in declared order (`TypeInfo`),
  each base paired with its erased static-cast procedure.
-/

namespace ZppThrowing

/-- Address identity of the internal `err_domain<rethrow_error>` object. -/
def rethrowDomain : Nat := 0

/-- Address identity of the internal `err_domain<throwing_exception>` object. -/
def excDomain : Nat := 1

/-- Model of `detail::type_information<Type, Bases...>::info`: the type's
identity together with, for each direct base in declared order, the base's
own type information and the erased static-cast adjusting an address of
this type to an address of that base. -/
inductive TypeInfo : Type where
  | node (tid : Nat) (bases : List (TypeInfo × (Int → Int)))

/-- The type identity at the root of a descriptor (the `type_id` pointer). -/
def TypeInfo.tid : TypeInfo → Nat
  | .node t _ => t

mutual

/-- Model of `detail::dyn_cast(base, most_derived_pointer, most_derived)`:
if the current descriptor is the target type, return the current address;
otherwise try each direct base in declared order, adjusting the address
through that base's conversion procedure, and return the first non-empty
result.  `none` models the null pointer returned on failure. -/
def dynCast (base : Nat) (ptr : Int) : TypeInfo → Option Int
  | .node tid bases =>
    if tid = base then some ptr
    else dynCastBases base ptr bases

/-- The loop over the direct bases inside `detail::dyn_cast`. -/
def dynCastBases (base : Nat) (ptr : Int) :
    List (TypeInfo × (Int → Int)) → Option Int
  | [] => none
  | (b, cast) :: rest =>
    match dynCast base (cast ptr) b with
    | some result => some result
    | none => dynCastBases base ptr rest

end

/-- `Reaches info target` holds when the hierarchy walk from descriptor
`info` can reach the type identity `target`: either `info` is itself
`target`, or some direct base (transitively) reaches it. -/
inductive Reaches : TypeInfo → Nat → Prop where
  | self (tid : Nat) (bases : List (TypeInfo × (Int → Int))) :
      Reaches (.node tid bases) tid
  | base (tid target : Nat) (bases : List (TypeInfo × (Int → Int)))
      (b : TypeInfo) (cast : Int → Int) :
      (b, cast) ∈ bases → Reaches b target →
      Reaches (.node tid bases) target

/-- Model of the type-erased `exception_object` handle as observed through
`dynamic_object()`: its dynamic type descriptor and the address of the
stored value.  `uid` is the identity of the heap allocation (the
`exception_object *` pointer value), used to track ownership and
destruction of this particular handle. -/
structure ExcObject : Type where
  tinfo : TypeInfo
  addr : Int
  uid : Nat

/-- The active member of the anonymous union inside `exit_condition`:
an error code, an owned exception handle, or a return value. -/
inductive Payload (α : Type) : Type where
  | code (c : Int)
  | exc (h : ExcObject)
  | value (v : α)

/-- Model of `exit_condition<Type, ExceptionType, Allocator>`: the
discriminating error-domain pointer (`none` models the null pointer)
together with the union payload. -/
structure ExitCondition (α : Type) : Type where
  errorDomain : Option Nat
  payload : Payload α

namespace ExitCondition

/-- `exit_condition::exit_condition()`: the default constructor stores the
address of `err_domain<rethrow_error>` and leaves the union's error code
member at its default value zero. -/
def init : ExitCondition α := ⟨some rethrowDomain, .code 0⟩

/-- `exit_condition::is_exception()`. -/
def isExc (c : ExitCondition α) : Bool := c.errorDomain = some excDomain

/-- `exit_condition::is_value()`. -/
def isValue (c : ExitCondition α) : Bool := c.errorDomain = none

/-- `exit_condition::success()`. -/
def success (c : ExitCondition α) : Bool := c.errorDomain = none

/-- `exit_condition::failure()`. -/
def failure (c : ExitCondition α) : Bool := c.errorDomain ≠ none

/-- `exit_condition::is_error()`: not a value and not an exception. -/
def isError (c : ExitCondition α) : Bool := !c.isValue && !c.isExc

/-- `exit_condition::is_rethrow()`. -/
def isRethrow (c : ExitCondition α) : Bool :=
  c.errorDomain = some rethrowDomain

/-- Read of the union member `m_error_code` (zero when the code member
is not the one last written, mirroring the default initialization). -/
def errCode (c : ExitCondition α) : Int :=
  match c.payload with
  | .code n => n
  | _ => 0

/-- The domain pointer stored in `m_error_domain`, as read by
`exit_condition::error()`; that accessor is only used on failure states,
where the domain is non-null. -/
def domainOrZero (c : ExitCondition α) : Nat := c.errorDomain.getD 0

/-- The exception handle reachable from `m_exception`, when the union
holds one. -/
def excPayload (c : ExitCondition α) : Option ExcObject :=
  match c.payload with
  | .exc h => some h
  | _ => none

/-- `exit_condition::exit_with_value(other)`: store the value and null the
error domain. -/
def exitWithValue (v : α) : ExitCondition α := ⟨none, .value v⟩

/-- `exit_condition::exit_with_exception(...)` with the infallible (void)
allocator: store the freshly created exception handle and set the domain
to `err_domain<throwing_exception>`. -/
def exitWithException (h : ExcObject) : ExitCondition α :=
  ⟨some excDomain, .exc h⟩

/-- `exit_condition::exit_rethrow()`: only the error domain is written,
with the address of `err_domain<rethrow_error>`. -/
def exitRethrow (c : ExitCondition α) : ExitCondition α :=
  { c with errorDomain := some rethrowDomain }

/-- `exit_condition::exit_with_error(error)`: store the error's domain
pointer and code. -/
def exitWithError (d : Nat) (code : Int) : ExitCondition α :=
  ⟨some d, .code code⟩

/-- `exit_condition::exit_propagate(other)`: move the exception handle if
`other` holds one, otherwise copy the error code; then copy the error
domain.  The handle is moved (the source's smart pointer is left null),
never duplicated. -/
def exitPropagate (other : ExitCondition β) : ExitCondition α :=
  if other.isExc then
    ⟨other.errorDomain,
      match other.payload with
      | .exc h => .exc h
      | _ => .code other.errCode⟩
  else
    ⟨other.errorDomain, .code other.errCode⟩

end ExitCondition

/-- The four outcome states named by the specification. -/
inductive OutcomeState : Type where
  | value
  | exception
  | domainError
  | rethrow
deriving DecidableEq

/-- The state of an outcome as determined by the single discriminant,
the stored error-domain pointer: null for `Value`, the internal
`throwing_exception` domain for `Exception`, the internal `rethrow_error`
domain for `Rethrow`, and any other domain for `DomainError`. -/
def stateOf (c : ExitCondition α) : OutcomeState :=
  match c.errorDomain with
  | none => .value
  | some d =>
    if d = excDomain then .exception
    else if d = rethrowDomain then .rethrow
    else .domainError

/-- A handler clause, by its declared match target: a catch-all (no
parameter), the generic `zpp::error` type, a domain error-code type whose
registered domain object has the given address, or a concrete exception
type with the given type identity.  The body is the clause function; it
returns the `throwing` outcome the clause produced (for non-throwing
clauses this is always a value outcome). -/
inductive Clause (α : Type) : Type where
  | catchAll (body : Unit → ExitCondition α)
  | genericError (body : Nat → Int → ExitCondition α)
  | domainValue (domain : Nat) (body : Int → ExitCondition α)
  | exceptionType (target : Nat) (body : Int → ExitCondition α)

/-- Observable events of a dispatch: a clause body invocation (with the
list index of the clause and the argument it received) or the run of the
exception handle's deleter (`exception_ptr` destruction) for the handle
with the given identity. -/
inductive Event : Type where
  | ranCatchAll (idx : Nat)
  | ranError (idx : Nat) (domain : Nat) (code : Int)
  | ranDomainValue (idx : Nat) (code : Int)
  | ranException (idx : Nat) (addr : Int)
  | disposed (uid : Nat)
deriving DecidableEq

/-- Identity of the handle held in `m_condition.exception()`, the one the
dispatch code disposes. -/
def condExcUid (c : ExitCondition α) : Nat :=
  match c.payload with
  | .exc h => h.uid
  | _ => 0

/-- Model of the throwing overload of
`throwing::catch_exception_object(exception, clause, clauses...)`
(src/zpp_throwing.h:1328-1466).  `cond` is `m_condition` (moved out as
`*this` when no clause applies or a clause rethrows), `exc` is the
`dynamic_object` argument (`none` models the null dynamic object), and
`idx` numbers the clauses for the event trace.  Returns the resulting
outcome together with the ordered trace of clause invocations and handle
disposals. -/
def catchExceptionObject (cond : ExitCondition α) (exc : Option ExcObject) :
    List (Clause α) → Nat → ExitCondition α × List Event
  | [], _ => (cond, [])
  | .catchAll body :: _, idx =>
    let result := body ()
    if result.isRethrow then
      (cond, [.ranCatchAll idx])
    else
      match exc with
      | some _ => (result, [.ranCatchAll idx, .disposed (condExcUid cond)])
      | none => (result, [.ranCatchAll idx])
  | .genericError body :: rest, idx =>
    match exc with
    | some h => catchExceptionObject cond (some h) rest (idx + 1)
    | none =>
      let d := cond.domainOrZero
      let code := cond.errCode
      let result := body d code
      if result.isRethrow then
        (cond, [.ranError idx d code])
      else
        (result, [.ranError idx d code])
  | .domainValue dm body :: rest, idx =>
    if exc.isSome || cond.domainOrZero ≠ dm then
      catchExceptionObject cond exc rest (idx + 1)
    else
      let code := cond.errCode
      let result := body code
      if result.isRethrow then
        (cond, [.ranDomainValue idx code])
      else
        (result, [.ranDomainValue idx code])
  | .exceptionType target body :: rest, idx =>
    match (match exc with
           | some h => dynCast target h.addr h.tinfo
           | none => none) with
    | none => catchExceptionObject cond exc rest (idx + 1)
    | some addr =>
      let result := body addr
      if result.isRethrow then
        (cond, [.ranException idx addr])
      else
        (result, [.ranException idx addr, .disposed (condExcUid cond)])

/-- The `dynamic_object` argument `catches` computes for the dispatch:
the stored exception's dynamic object when the condition holds an
exception, the null dynamic object otherwise. -/
def excArg (c : ExitCondition α) : Option ExcObject :=
  if c.isExc then c.excPayload else none

/-- Model of the throwing overload of `throwing::catches(clauses...)`
(src/zpp_throwing.h:1598-1620): if the condition is successful, the
outcome is returned unchanged and nothing runs; otherwise dispatch with
the dynamic object of the exception when one is stored, the null dynamic
object otherwise. -/
def catchesD (cond : ExitCondition α) (clauses : List (Clause α)) :
    ExitCondition α × List Event :=
  if cond.success then (cond, [])
  else catchExceptionObject cond (excArg cond) clauses 0

/-- Whether a clause applies to the dispatched condition, as decided by
the corresponding guard in `catch_exception_object`: a catch-all always
applies; a generic-error clause applies when the dynamic object is null;
a domain-value clause additionally requires the stored domain pointer to
be the clause type's registered domain; an exception-type clause applies
when the hierarchy search from the dynamic object succeeds. -/
def applies (ex : Option ExcObject) (cond : ExitCondition α) :
    Clause α → Bool
  | .catchAll _ => true
  | .genericError _ => ex.isNone
  | .domainValue dm _ => ex.isNone && cond.domainOrZero = dm
  | .exceptionType target _ =>
    match ex with
    | some h => (dynCast target h.addr h.tinfo).isSome
    | none => false

/-- The discriminant condition corresponding to each of the four outcome
states, directly as the claim describes them: a null domain pointer for
`Value`, the internal `throwing_exception` domain for `Exception`, the
internal `rethrow_error` domain for `Rethrow`, and any other (non-null)
domain for `DomainError`. -/
def statePred : OutcomeState → ExitCondition α → Prop
  | .value, c => c.errorDomain = none
  | .exception, c => c.errorDomain = some excDomain
  | .rethrow, c => c.errorDomain = some rethrowDomain
  | .domainError, c =>
    ∃ dm, c.errorDomain = some dm ∧ dm ≠ excDomain ∧ dm ≠ rethrowDomain

/-! Concrete descriptors for the `std::exception` hierarchy slice used by
the catch tests: `define_exception<std::exception>` has no bases,
`define_exception<std::runtime_error>` has base `std::exception`, and
`define_exception<std::range_error>` has base `std::runtime_error`
(src/zpp_throwing.h:1703-1719).  These are single, non-virtual
inheritance chains, so the erased static casts do not adjust the
address. -/

/-- Descriptor of `std::exception` (no direct bases). -/
def exceptionInfo : TypeInfo := .node 10 []

/-- Descriptor of `std::runtime_error` (direct base `std::exception`). -/
def runtimeErrorInfo : TypeInfo := .node 11 [(exceptionInfo, id)]

/-- Descriptor of `std::range_error` (direct base `std::runtime_error`). -/
def rangeErrorInfo : TypeInfo := .node 12 [(runtimeErrorInfo, id)]

/-- The handle produced by `co_yield std::runtime_error("msg")`: the
stored `std::runtime_error` value lives at address 100 and the heap
allocation has identity 7. -/
def runtimeErrorHandle : ExcObject := ⟨runtimeErrorInfo, 100, 7⟩

/-- Contents of the model heap for the scenario: the `what()` message of
the exception object stored at each address.  Raising
`std::runtime_error("msg")` placed the value at address 100. -/
def scenarioWhat : Int → String := fun a => if a = 100 then "msg" else ""

/-- A clause body that completes normally with `void`. -/
def unitValue : ExitCondition Unit := .exitWithValue ()

/-- The outcome after `co_yield std::runtime_error("msg")`. -/
def scenarioOutcome : ExitCondition Unit :=
  .exitWithException runtimeErrorHandle

/-- The ordered clause list of the order-priority scenario:
`(range_error) -> fail, (exception e) -> ..., (runtime_error) -> fail,
() -> fail`. -/
def c1Clauses : List (Clause Unit) :=
  [ .exceptionType rangeErrorInfo.tid (fun _ => unitValue)
  , .exceptionType exceptionInfo.tid (fun _ => unitValue)
  , .exceptionType runtimeErrorInfo.tid (fun _ => unitValue)
  , .catchAll (fun _ => unitValue) ]

/-- The condition produced by `co_yield zpp::rethrow` when no enclosing
failure exists: `exit_rethrow()` invoked on the default-constructed
condition. -/
def rethrowOutcome : ExitCondition Unit := ExitCondition.exitRethrow .init


/-- Occurrences of the disposal of the handle with identity `u` in an
event trace. -/
def countU (u : Nat) : List Event → Nat
  | [] => 0
  | .disposed v :: rest => (if v = u then 1 else 0) + countU u rest
  | _ :: rest => countU u rest

/-- The identity of the handle stored in the union payload, if any. -/
def payloadUid (c : ExitCondition α) : Option Nat :=
  match c.payload with
  | .exc h => some h.uid
  | _ => none

/-- The condition owns the handle with identity `u`: the discriminant is
the exception domain and the union holds that handle. -/
def ownsU (u : Nat) (c : ExitCondition α) : Bool :=
  c.isExc && payloadUid c = some u

/-- The condition does not reference the handle with identity `u` at
all. -/
def CondAvoids (u : Nat) (c : ExitCondition α) : Prop :=
  payloadUid c ≠ some u

/-- A clause whose body can never return an outcome referencing the
handle with identity `u` — true of every real clause, since a clause body
has no way to smuggle the dispatched handle into its own result. -/
def ClauseFresh (u : Nat) : Clause α → Prop
  | .catchAll body => ∀ x, CondAvoids u (body x)
  | .genericError body => ∀ d n, CondAvoids u (body d n)
  | .domainValue _ body => ∀ n, CondAvoids u (body n)
  | .exceptionType _ body => ∀ a, CondAvoids u (body a)

/-- One boundary crossing in the life of an outcome: either it is handed
to an enclosing scope without a handler list (`await_suspend` performing
`exit_propagate`), or it is dispatched by a `catches` with the given
clause list. -/
inductive LifeStep (α : Type) : Type where
  | propagate
  | dispatch (clauses : List (Clause α))

/-- Every dispatch step's clause bodies avoid the handle `u`. -/
def StepsFresh (u : Nat) : List (LifeStep α) → Prop
  | [] => True
  | .propagate :: rest => StepsFresh u rest
  | .dispatch cls :: rest =>
    (∀ cl ∈ cls, ClauseFresh u cl) ∧ StepsFresh u rest

/-- Run an outcome through a sequence of lifecycle steps, collecting the
dispatch traces in order.  Propagation moves the condition verbatim via
`exit_propagate` and destroys nothing (the smart pointer is moved); each
dispatch may consume the handle.  The top-level drop of the final
condition runs `~exit_condition`, which for the instantiation used by
`throwing` (`ExceptionType` is the trivially destructible raw pointer
`exception_object *`, src/zpp_throwing.h:1662) runs no deleter, so the
drop itself contributes no disposal event. -/
def lifeRun (cond : ExitCondition α) :
    List (LifeStep α) → ExitCondition α × List Event
  | [] => (cond, [])
  | .propagate :: rest => lifeRun (.exitPropagate cond) rest
  | .dispatch cls :: rest =>
    let s := catchesD cond cls
    let t := lifeRun s.1 rest
    (t.1, s.2 ++ t.2)

/-! Model for the resource-teardown ordering claim.  A suspendable
computation is a tree of: normal completion, raising an exception
(`co_yield`, whose `suspend_destroy::await_suspend` destroys the
coroutine frame via `handle.destroy()`), acquiring a frame-local
resource (destroyed when the frame is destroyed), and awaiting an inner
computation (`throwing::await_suspend` propagates the inner failure to
the awaiting coroutine and then destroys the awaiting frame with
`outer_handle.destroy()`).  Frame destruction releases the frame's
locals in reverse order of acquisition, per the destructor semantics the
coroutine frame guarantees; `held` is the stack of resources the current
frame holds, most recently acquired first. -/

/-- A suspendable unit of work with frame-local resources. -/
inductive Comp : Type where
  | ret
  | raise (h : ExcObject)
  | acquire (r : Nat) (rest : Comp)
  | awaitC (inner : Comp) (rest : Comp)

/-- Events observable around a `try_catch`: resource acquisition and
release, and the dispatch events of the handler clauses. -/
inductive REvent : Type where
  | acquired (r : Nat)
  | released (r : Nat)
  | handler (e : Event)
deriving DecidableEq

/-- Evaluate a computation with the current frame holding `held`
(most recently acquired first).  Returns the raised exception, if any,
and the ordered trace of acquisitions and releases.  On every path out
of a frame — normal completion, raising, or a failed await — the frame's
locals are released in reverse order of acquisition before control
leaves the frame. -/
def runComp : Comp → List Nat → Option ExcObject × List REvent
  | .ret, held => (none, held.map .released)
  | .raise h, held => (some h, held.map .released)
  | .acquire r rest, held =>
    let t := runComp rest (r :: held)
    (t.1, .acquired r :: t.2)
  | .awaitC inner rest, held =>
    match runComp inner [] with
    | (none, trInner) =>
      let t := runComp rest held
      (t.1, trInner ++ t.2)
    | (some h, trInner) => (some h, trInner ++ held.map .released)

/-- Model of `zpp::try_catch(clause, catch_clauses...)`: evaluate the
computation; the returned coroutine handle is destroyed inside the
function, so all frame teardown happens during `runComp`; only then is
`catches` applied to the resulting outcome. -/
def tryCatchComp (c : Comp) (clauses : List (Clause Unit)) : List REvent :=
  let t := runComp c []
  match t.1 with
  | none => t.2
  | some h =>
    t.2 ++
      ((catchesD (ExitCondition.exitWithException h) clauses).2).map
        .handler

/-- Straight-line computation acquiring the resources `rs` in order and
then raising `h`. -/
def acquiresThenRaise (rs : List Nat) (h : ExcObject) : Comp :=
  rs.foldr .acquire (.raise h)


mutual

theorem dynCast_isSome_reaches (base : Nat) :
    ∀ (ptr : Int) (info : TypeInfo),
      (dynCast base ptr info).isSome → Reaches info base
  | ptr, .node tid bases, h => by
    rw [dynCast] at h
    by_cases htid : tid = base
    · subst htid; exact .self tid bases
    · simp only [if_neg htid] at h
      obtain ⟨b, cast, hmem, hsome⟩ :=
        dynCastBases_isSome_reaches base ptr bases h
      exact .base tid base bases b cast hmem hsome

theorem dynCastBases_isSome_reaches (base : Nat) :
    ∀ (ptr : Int) (l : List (TypeInfo × (Int → Int))),
      (dynCastBases base ptr l).isSome →
      ∃ b cast, (b, cast) ∈ l ∧ Reaches b base
  | ptr, [], h => by rw [dynCastBases] at h; simp at h
  | ptr, (b, cast) :: rest, h => by
    rw [dynCastBases] at h
    cases hc : dynCast base (cast ptr) b with
    | some r =>
      exact ⟨b, cast, List.mem_cons_self _ _,
        dynCast_isSome_reaches base (cast ptr) b (by rw [hc]; rfl)⟩
    | none =>
      rw [hc] at h
      obtain ⟨b', cast', hmem, hr⟩ :=
        dynCastBases_isSome_reaches base ptr rest h
      exact ⟨b', cast', List.mem_cons_of_mem _ hmem, hr⟩

end

theorem reaches_dynCast_isSome {info : TypeInfo} {base : Nat}
    (h : Reaches info base) : ∀ ptr : Int, (dynCast base ptr info).isSome := by
  induction h with
  | self tid bases =>
    intro ptr
    rw [dynCast]
    simp
  | base tid target bases b cast hmem _ ih =>
    intro ptr
    rw [dynCast]
    by_cases htid : tid = target
    · simp [htid]
    · simp only [if_neg htid]
      clear htid
      induction bases with
      | nil => simp at hmem
      | cons head tail ihl =>
        rw [dynCastBases]
        rcases List.mem_cons.mp hmem with heq | htail
        · subst heq
          cases hc : dynCast target (cast ptr) b with
          | some r => rfl
          | none =>
            have hcontra := ih (cast ptr)
            rw [hc] at hcontra
            simp at hcontra
        · obtain ⟨bh, ch⟩ := head
          cases hc : dynCast target (ch ptr) bh with
          | some r => rfl
          | none => exact ihl htail

/-- The hierarchy search succeeds exactly when the target is the dynamic
type itself or a direct or transitive base of it. -/
theorem dynCast_isSome_iff (X : Nat) (ptr : Int) (info : TypeInfo) :
    (dynCast X ptr info).isSome ↔ Reaches info X :=
  ⟨dynCast_isSome_reaches X ptr info, fun h => reaches_dynCast_isSome h ptr⟩

/-- `std::range_error` (identity 12) is unrelated upward from
`std::runtime_error`: the walk from `runtimeErrorInfo` never reaches
it. -/
theorem runtimeError_not_reaches_12 : ¬ Reaches runtimeErrorInfo 12 :=
  fun hr => absurd (reaches_dynCast_isSome hr 0) (by decide)

/-- C2: an exception-type clause for `X` is invoked on an `Exception`
outcome of dynamic descriptor `D` exactly when the hierarchy search from
`D` reaches `X`; the search checks the current type before its bases
(first conjunct), visits the direct bases in declared order adjusting the
address through each base's conversion procedure and returns the first
non-empty result (second to fourth conjuncts), succeeds precisely on
reachable targets (fifth conjunct); a matching clause is invoked with
the adjusted address (sixth conjunct), and a clause for an unrelated
type never matches, dispatch proceeding to the next clause (seventh
conjunct). -/
theorem c2_hierarchy_search_drives_exception_clause_matching
    {α : Type} (X tid : Nat) (bases rest : List (TypeInfo × (Int → Int)))
    (b : TypeInfo) (cast : Int → Int) (ptr r : Int) (info : TypeInfo)
    (cond : ExitCondition α) (h : ExcObject)
    (body : Int → ExitCondition α) (cls : List (Clause α)) (idx : Nat) :
    (dynCast X ptr (.node X bases) = some ptr) ∧
    (tid ≠ X → dynCast X ptr (.node tid bases) = dynCastBases X ptr bases) ∧
    (dynCast X (cast ptr) b = some r →
      dynCastBases X ptr ((b, cast) :: rest) = some r) ∧
    (dynCast X (cast ptr) b = none →
      dynCastBases X ptr ((b, cast) :: rest) = dynCastBases X ptr rest) ∧
    ((dynCast X ptr info).isSome ↔ Reaches info X) ∧
    (∀ addr, dynCast X h.addr h.tinfo = some addr →
      catchExceptionObject cond (some h) (.exceptionType X body :: cls) idx =
        (if (body addr).isRethrow then (cond, [.ranException idx addr])
         else
           (body addr,
             [.ranException idx addr, .disposed (condExcUid cond)]))) ∧
    (¬ Reaches h.tinfo X →
      catchExceptionObject cond (some h) (.exceptionType X body :: cls) idx =
        catchExceptionObject cond (some h) cls (idx + 1)) := by
  refine ⟨?_, ?_, ?_, ?_, dynCast_isSome_iff X ptr info, ?_, ?_⟩
  · rw [dynCast]; simp
  · intro hne; rw [dynCast]; simp [hne]
  · intro hc; rw [dynCastBases, hc]
  · intro hc; rw [dynCastBases, hc]
  · intro addr hc
    simp only [catchExceptionObject, hc]
  · intro hnr
    have hnone : dynCast X h.addr h.tinfo = none := by
      cases hcc : dynCast X h.addr h.tinfo with
      | none => rfl
      | some a =>
        exact absurd
          (dynCast_isSome_reaches X h.addr h.tinfo (by rw [hcc]; rfl)) hnr
    simp only [catchExceptionObject, hnone]

/-- Witness for C2, at the order-priority scenario: target
`std::exception` (identity 10) is reached from `runtimeErrorInfo` through
its declared base, so the clause is invoked with the adjusted (here
unadjusted) address 100; target `std::range_error` (identity 12) is
unreachable, so the clause is skipped and dispatch proceeds. -/
theorem c2_witness :
    (dynCast 10 (100 : Int) (.node 10 []) = some 100) ∧
    (dynCast 10 (100 : Int) (.node 11 [(exceptionInfo, id)]) =
      dynCastBases 10 100 [(exceptionInfo, id)]) ∧
    (dynCastBases 10 (100 : Int) ((exceptionInfo, id) :: []) = some 100) ∧
    ((dynCast 10 (100 : Int) runtimeErrorInfo).isSome ↔
      Reaches runtimeErrorInfo 10) ∧
    (catchExceptionObject scenarioOutcome (some runtimeErrorHandle)
        (.exceptionType 10 (fun _ => unitValue) :: []) 0 =
      (if (unitValue).isRethrow then
        (scenarioOutcome, [.ranException 0 100])
       else (unitValue, [.ranException 0 100, .disposed 7]))) ∧
    (catchExceptionObject scenarioOutcome (some runtimeErrorHandle)
        (.exceptionType 12 (fun _ => unitValue) :: []) 0 =
      catchExceptionObject scenarioOutcome (some runtimeErrorHandle) [] 1) := by
  have t10 := c2_hierarchy_search_drives_exception_clause_matching
    (α := Unit) 10 11 [(exceptionInfo, id)] [] exceptionInfo id 100 100
    runtimeErrorInfo scenarioOutcome runtimeErrorHandle
    (fun _ => unitValue) [] 0
  have t12 := c2_hierarchy_search_drives_exception_clause_matching
    (α := Unit) 12 11 [(exceptionInfo, id)] [] exceptionInfo id 100 100
    runtimeErrorInfo scenarioOutcome runtimeErrorHandle
    (fun _ => unitValue) [] 0
  exact ⟨t10.1, t10.2.1 (by decide), t10.2.2.1 (by decide),
    t10.2.2.2.2.1,
    t10.2.2.2.2.2.1 100 (by decide),
    t12.2.2.2.2.2.2 runtimeError_not_reaches_12⟩

/-- C3: when the clause matched against an `Exception` outcome produces
the `Rethrow` signal, dispatch returns the original outcome verbatim —
the very same condition record, hence the same dynamic type and payload
identity — and the handle is not disposed (first conjunct; third
conjunct for a matching catch-all).  When the matched clause's result is
not `Rethrow`, the handle's deleter runs immediately after the clause
body's invocation, as the event following it (second conjunct).  Because
the rethrown outcome is the original, an enclosing dispatch with a
clause for the original's exact dynamic type matches it at the original
address (fourth conjunct). -/
theorem c3_rethrow_preserves_original_outcome
    {α : Type} (cond : ExitCondition α) (h : ExcObject) (X : Nat)
    (body body2 : Int → ExitCondition α) (bodyAll : Unit → ExitCondition α)
    (cls cls2 : List (Clause α)) (idx : Nat) (addr : Int)
    (hdom : cond.errorDomain = some excDomain)
    (hpay : cond.payload = .exc h)
    (hmatch : dynCast X h.addr h.tinfo = some addr) :
    ((body addr).isRethrow →
      catchExceptionObject cond (some h) (.exceptionType X body :: cls) idx =
        (cond, [.ranException idx addr])) ∧
    (¬ (body addr).isRethrow →
      catchExceptionObject cond (some h) (.exceptionType X body :: cls) idx =
        (body addr, [.ranException idx addr, .disposed h.uid])) ∧
    ((bodyAll ()).isRethrow →
      catchExceptionObject cond (some h) (.catchAll bodyAll :: cls2) idx =
        (cond, [.ranCatchAll idx])) ∧
    (catchesD cond [.exceptionType h.tinfo.tid body2] =
      (if (body2 h.addr).isRethrow then (cond, [.ranException 0 h.addr])
       else (body2 h.addr,
         [.ranException 0 h.addr, .disposed h.uid]))) := by
  have huid : condExcUid cond = h.uid := by
    simp [condExcUid, hpay]
  refine ⟨?_, ?_, ?_, ?_⟩
  · intro hr
    simp only [catchExceptionObject, hmatch]
    simp [hr]
  · intro hr
    simp only [catchExceptionObject, hmatch]
    simp [hr, huid]
  · intro hr
    simp only [catchExceptionObject]
    simp [hr]
  · have hself : dynCast h.tinfo.tid h.addr h.tinfo = some h.addr := by
      cases hti : h.tinfo with
      | node t bs => simp [TypeInfo.tid, dynCast]
    have hsucc : cond.success = false := by
      simp [ExitCondition.success, hdom]
    have harg : excArg cond = some h := by
      simp [excArg, ExitCondition.isExc, hdom, ExitCondition.excPayload,
        hpay]
    rw [catchesD, hsucc]
    simp only [Bool.false_eq_true, if_false, harg]
    simp only [catchExceptionObject, hself]
    by_cases hr : (body2 h.addr).isRethrow
    · simp [hr, huid]
    · simp [hr, huid]

/-- Witness for C3: in the order-priority scenario, a rethrowing matched
clause leaves the outcome as the original and the handle alive, a
normally-returning matched clause disposes the handle right after
running, a rethrowing catch-all preserves the original, and the
preserved original is caught by an exact-type clause in an enclosing
dispatch. -/
theorem c3_witness :
    (catchExceptionObject scenarioOutcome (some runtimeErrorHandle)
        (.exceptionType 10 (fun _ => rethrowOutcome) :: []) 0 =
      (scenarioOutcome, [.ranException 0 100])) ∧
    (catchExceptionObject scenarioOutcome (some runtimeErrorHandle)
        (.exceptionType 10 (fun _ => unitValue) :: []) 0 =
      (unitValue, [.ranException 0 100, .disposed 7])) ∧
    (catchExceptionObject scenarioOutcome (some runtimeErrorHandle)
        (.catchAll (fun _ => rethrowOutcome) :: []) 0 =
      (scenarioOutcome, [.ranCatchAll 0])) ∧
    (catchesD scenarioOutcome
        [.exceptionType runtimeErrorHandle.tinfo.tid (fun _ => unitValue)] =
      (if (unitValue).isRethrow then
        (scenarioOutcome, [.ranException 0 100])
       else (unitValue, [.ranException 0 100, .disposed 7]))) := by
  have tRe := c3_rethrow_preserves_original_outcome
    scenarioOutcome runtimeErrorHandle 10 (fun _ => rethrowOutcome)
    (fun _ => unitValue) (fun _ => rethrowOutcome) [] [] 0 100
    rfl rfl (by decide)
  have tVal := c3_rethrow_preserves_original_outcome
    scenarioOutcome runtimeErrorHandle 10 (fun _ => unitValue)
    (fun _ => unitValue) (fun _ => rethrowOutcome) [] [] 0 100
    rfl rfl (by decide)
  exact ⟨tRe.1 (by decide), tVal.2.1 (by decide), tRe.2.2.1 (by decide),
    tVal.2.2.2⟩

/-- C1: dispatch is first-match-wins in clause list order, never
most-specific.  Raising `runtime_error("msg")` against the ordered
clauses `(range_error), (exception e), (runtime_error), ()` produces
exactly one clause invocation: the second clause (index 1, the base-type
`exception` clause), invoked with the address of the raised value, whose
message is `"msg"`, followed by the handle disposal; the `range_error`
clause, the exact-type `runtime_error` clause, and the catch-all never
run (no events of theirs appear in the trace). -/
theorem c1_first_match_wins_order_priority :
    stateOf scenarioOutcome = .exception ∧
    (catchesD scenarioOutcome c1Clauses).2 =
      [.ranException 1 100, .disposed 7] ∧
    scenarioWhat 100 = "msg" := by
  decide

/-- C10: issuing the rethrow signal with no enclosing failure yields a
well-defined failure outcome: the stored domain is the internal
`rethrow_error` domain with code 0, `failure()` and `is_error()` report
it as a domain-style failure, and a subsequent dispatch matches it with
a clause declared for the `rethrow_error` code type (invoked with
code 0). -/
theorem c10_rethrow_without_enclosing_failure :
    rethrowOutcome.failure = true ∧
    rethrowOutcome.isError = true ∧
    rethrowOutcome.domainOrZero = rethrowDomain ∧
    rethrowOutcome.errCode = 0 ∧
    (catchesD rethrowOutcome
      [ .domainValue rethrowDomain (fun _ => unitValue)
      , .catchAll (fun _ => unitValue)]).2 = [.ranDomainValue 0 0] := by
  decide

/-- C4 counterexample: a generic `Error` clause does apply to an outcome
in the `Rethrow` state.  Dispatching the condition produced by
`co_yield zpp::rethrow` with no enclosing failure — whose state is
`Rethrow`, not `DomainError` — against a clause list headed by a generic
`zpp::error` clause runs that clause (with the rethrow domain and
code 0), contradicting the claim that such a clause applies only in the
`DomainError` state and never to a `Rethrow` outcome. -/
theorem c4_counterexample_error_clause_runs_on_rethrow :
    stateOf rethrowOutcome = .rethrow ∧
    (catchesD rethrowOutcome
      [ .genericError (fun _ _ => unitValue)
      , .catchAll (fun _ => unitValue)]).2 =
      [.ranError 0 rethrowDomain 0] := by
  decide

/-- C5 counterexample: a clause declared for the domain-value type
`zpp::rethrow_error` (whose registered domain is the internal rethrow
domain, src/zpp_throwing.h:267-275) applies to an outcome in the
`Rethrow` state, although that outcome is not in the `DomainError`
state — so "applies only if the dispatched outcome is DomainError" fails
for this clause type. -/
theorem c5_counterexample_domain_clause_runs_on_rethrow :
    stateOf rethrowOutcome = .rethrow ∧
    (catchesD rethrowOutcome
      [ .domainValue rethrowDomain (fun _ => unitValue)
      , .catchAll (fun _ => unitValue)]).2 = [.ranDomainValue 0 0] := by
  decide

/-- A clause to which the dispatched condition does not apply is skipped:
if no clause in the list applies, the dispatch loop returns the original
condition, with its kind and payload intact, and runs nothing. -/
theorem catchExceptionObject_no_match {α : Type}
    (cond : ExitCondition α) (ex : Option ExcObject) :
    ∀ (clauses : List (Clause α)) (idx : Nat),
      (∀ cl ∈ clauses, applies ex cond cl = false) →
      catchExceptionObject cond ex clauses idx = (cond, []) := by
  intro clauses
  induction clauses with
  | nil => intro idx _; rfl
  | cons c rest ih =>
    intro idx hall
    have hc := hall c (List.mem_cons_self c rest)
    have hrest : ∀ cl ∈ rest, applies ex cond cl = false :=
      fun cl hm => hall cl (List.mem_cons_of_mem c hm)
    cases c with
    | catchAll body => simp [applies] at hc
    | genericError body =>
      cases ex with
      | none => simp [applies] at hc
      | some h =>
        simp only [catchExceptionObject]
        exact ih (idx + 1) hrest
    | domainValue dm body =>
      simp only [applies, Bool.and_eq_false_iff] at hc
      rcases hc with hc | hc
      · cases ex with
        | none => simp [Option.isNone] at hc
        | some h =>
          simp only [catchExceptionObject, Option.isSome, Bool.true_or,
            if_true]
          exact ih (idx + 1) hrest
      · have hne : cond.domainOrZero ≠ dm := by
          simpa using hc
        simp only [catchExceptionObject]
        rw [if_pos]
        · exact ih (idx + 1) hrest
        · simp [hne]
    | exceptionType X body =>
      cases ex with
      | none =>
        simp only [catchExceptionObject]
        exact ih (idx + 1) hrest
      | some h =>
        simp only [applies] at hc
        have hnone : dynCast X h.addr h.tinfo = none := by
          cases hd : dynCast X h.addr h.tinfo with
          | none => rfl
          | some a => rw [hd] at hc; simp at hc
        simp only [catchExceptionObject, hnone]
        exact ih (idx + 1) hrest

/-- The discriminant condition of each state holds exactly when
`stateOf` computes that state. -/
theorem statePred_iff_stateOf {α : Type} (c : ExitCondition α)
    (s : OutcomeState) : statePred s c ↔ stateOf c = s := by
  cases hdom : c.errorDomain with
  | none => cases s <;> simp [statePred, stateOf, hdom]
  | some dm =>
    by_cases h1 : dm = excDomain
    · subst h1
      cases s <;> simp [statePred, stateOf, hdom, excDomain, rethrowDomain]
    · by_cases h2 : dm = rethrowDomain
      · subst h2
        cases s <;>
          simp [statePred, stateOf, hdom, excDomain, rethrowDomain]
      · cases s <;>
          simp [statePred, stateOf, hdom, h1, h2]

/-- C6: dispatch is the identity in both no-op cases.  A `Value` outcome
(successful condition) is returned unchanged with no clause running
(first conjunct); and when no clause in the list applies — no catch-all
present and no clause matching — the returned outcome is the input
condition itself, identical in kind and payload, with an empty event
trace, so the unmatched failure propagates to the enclosing scope
(second conjunct). -/
theorem c6_value_and_unmatched_returned_unchanged {α : Type}
    (cond : ExitCondition α) (clauses : List (Clause α)) :
    (cond.success = true → catchesD cond clauses = (cond, [])) ∧
    ((∀ cl ∈ clauses, applies (excArg cond) cond cl = false) →
      catchesD cond clauses = (cond, [])) := by
  constructor
  · intro hs
    simp [catchesD, hs]
  · intro hall
    by_cases hs : cond.success
    · simp [catchesD, hs]
    · simp only [catchesD, hs, Bool.false_eq_true, if_false]
      exact catchExceptionObject_no_match cond (excArg cond) clauses 0 hall

/-- Witness for C6: a value outcome passes through the order-priority
clause list untouched, and a domain error in domain 5 passes unchanged
through a list holding only a clause for domain 6 and an exception-type
clause (no catch-all, nothing matches). -/
theorem c6_witness :
    (catchesD unitValue c1Clauses = (unitValue, [])) ∧
    (catchesD (ExitCondition.exitWithError 5 3 : ExitCondition Unit)
        [ .domainValue 6 (fun _ => unitValue)
        , .exceptionType 10 (fun _ => unitValue)] =
      ((ExitCondition.exitWithError 5 3 : ExitCondition Unit), [])) :=
  ⟨(c6_value_and_unmatched_returned_unchanged unitValue c1Clauses).1
      (by decide),
   (c6_value_and_unmatched_returned_unchanged
      (ExitCondition.exitWithError 5 3)
      [ .domainValue 6 (fun _ => unitValue)
      , .exceptionType 10 (fun _ => unitValue)]).2 (by decide)⟩

/-- C7: every outcome is in exactly one of the four states.  The single
discriminant — the stored error-domain pointer — makes the four state
conditions mutually exclusive and exhaustive: for every condition there
is exactly one state whose discriminant condition holds, and it is the
one `stateOf` computes (first two conjuncts).  Every construction, exit,
and propagation operation establishes exactly one state: default
construction gives `Rethrow`, exiting with a value gives `Value`,
exiting with an exception gives `Exception`, `exit_rethrow` gives
`Rethrow`, exiting with an error of any user domain (one distinct from
the two internal placeholder domains) gives `DomainError`, and
propagation reproduces the source condition's state (remaining
conjuncts). -/
theorem c7_exactly_one_state {α β : Type} (c : ExitCondition α) (v : α)
    (h : ExcObject) (d : Nat) (code : Int) (other : ExitCondition β) :
    (∃! s : OutcomeState, statePred s c) ∧
    (∀ s : OutcomeState, statePred s c ↔ stateOf c = s) ∧
    stateOf (ExitCondition.init : ExitCondition α) = .rethrow ∧
    stateOf (ExitCondition.exitWithValue v) = .value ∧
    stateOf (ExitCondition.exitWithException h : ExitCondition α) =
      .exception ∧
    stateOf (ExitCondition.exitRethrow c) = .rethrow ∧
    (d ≠ excDomain → d ≠ rethrowDomain →
      stateOf (ExitCondition.exitWithError d code : ExitCondition α) =
        .domainError) ∧
    stateOf (ExitCondition.exitPropagate other : ExitCondition α) =
      stateOf other := by
  refine ⟨⟨stateOf c, (statePred_iff_stateOf c _).mpr rfl,
      fun s hs => ((statePred_iff_stateOf c s).mp hs).symm⟩,
    statePred_iff_stateOf c, ?_, ?_, ?_, ?_, ?_, ?_⟩
  · simp [stateOf, ExitCondition.init, excDomain, rethrowDomain]
  · simp [stateOf, ExitCondition.exitWithValue]
  · simp [stateOf, ExitCondition.exitWithException]
  · simp [stateOf, ExitCondition.exitRethrow, excDomain, rethrowDomain]
  · intro h1 h2
    simp [stateOf, ExitCondition.exitWithError, h1, h2]
  · by_cases hoe : other.isExc <;>
      simp [ExitCondition.exitPropagate, hoe, stateOf]

/-- Witness for C7: the rethrow-signal outcome is in exactly one state;
exiting with an error in the user domain 5 establishes the
`DomainError` state; propagating the runtime-error outcome reproduces
its `Exception` state. -/
theorem c7_witness :
    (∃! s : OutcomeState, statePred s rethrowOutcome) ∧
    stateOf (ExitCondition.exitWithError 5 3 : ExitCondition Unit) =
      .domainError ∧
    stateOf (ExitCondition.exitPropagate scenarioOutcome :
      ExitCondition Unit) = stateOf scenarioOutcome := by
  have t := c7_exactly_one_state (β := Unit) rethrowOutcome ()
    runtimeErrorHandle 5 3 scenarioOutcome
  exact ⟨t.1, t.2.2.2.2.2.2.1 (by decide) (by decide), t.2.2.2.2.2.2.2⟩

/-- C4 (amended): a generic `Error` clause applies exactly when the
dispatched outcome is in the `DomainError` or the `Rethrow` state — a
dispatched `Rethrow` outcome is indistinguishable from a domain error of
the internal rethrow domain with code 0 — and when it applies it is
invoked with the full stored (domain, code) pair unconditionally, with
no domain filter (third conjunct).  It never applies to a `Value`
outcome (dispatch returns it before any clause is considered, first
conjunct) nor to an `Exception` outcome (dispatch skips the clause,
second conjunct). -/
theorem c4_amended_generic_error_applies_iff_domain_error_or_rethrow
    {α : Type} (cond : ExitCondition α)
    (body : Nat → Int → ExitCondition α)
    (cls clauses : List (Clause α)) (idx : Nat)
    (hwf : cond.isExc = true → cond.excPayload.isSome = true) :
    (stateOf cond = .value → catchesD cond clauses = (cond, [])) ∧
    (stateOf cond = .exception →
      catchExceptionObject cond (excArg cond)
          (.genericError body :: cls) idx =
        catchExceptionObject cond (excArg cond) cls (idx + 1)) ∧
    ((stateOf cond = .domainError ∨ stateOf cond = .rethrow) →
      catchExceptionObject cond (excArg cond)
          (.genericError body :: cls) idx =
        (if (body cond.domainOrZero cond.errCode).isRethrow then
          (cond, [.ranError idx cond.domainOrZero cond.errCode])
         else (body cond.domainOrZero cond.errCode,
           [.ranError idx cond.domainOrZero cond.errCode]))) := by
  refine ⟨?_, ?_, ?_⟩
  · intro hv
    have hdom : cond.errorDomain = none := by
      have := (statePred_iff_stateOf cond .value).mpr hv
      simpa [statePred] using this
    simp [catchesD, ExitCondition.success, hdom]
  · intro he
    have hdom : cond.errorDomain = some excDomain := by
      have := (statePred_iff_stateOf cond .exception).mpr he
      simpa [statePred] using this
    have hisexc : cond.isExc = true := by
      simp [ExitCondition.isExc, hdom]
    obtain ⟨hh, hp⟩ : ∃ hh, cond.excPayload = some hh := by
      cases hp : cond.excPayload with
      | none => rw [hp] at hwf; simp [hisexc] at hwf
      | some hh => exact ⟨hh, rfl⟩
    have harg : excArg cond = some hh := by
      simp [excArg, hisexc, hp]
    rw [harg]
    simp only [catchExceptionObject]
  · intro hde
    have hdom : ∃ dm, cond.errorDomain = some dm ∧ dm ≠ excDomain := by
      rcases hde with hde | hde
      · have := (statePred_iff_stateOf cond .domainError).mpr hde
        simp only [statePred] at this
        obtain ⟨dm, hdm, h1, _⟩ := this
        exact ⟨dm, hdm, h1⟩
      · have := (statePred_iff_stateOf cond .rethrow).mpr hde
        simp only [statePred] at this
        exact ⟨rethrowDomain, this, by decide⟩
    obtain ⟨dm, hdm, hne⟩ := hdom
    have harg : excArg cond = none := by
      simp [excArg, ExitCondition.isExc, hdm, hne]
    rw [harg]
    simp only [catchExceptionObject]

/-- Witness for C4 (amended): a value outcome runs nothing; the
exception outcome of the scenario skips the generic error clause; the
domain error (domain 5, code 3) and the rethrow outcome both invoke the
generic error clause with the stored pair. -/
theorem c4_amended_witness :
    (catchesD unitValue [.genericError (fun _ _ => unitValue)] =
      (unitValue, [])) ∧
    (catchExceptionObject scenarioOutcome (excArg scenarioOutcome)
        (.genericError (fun _ _ => unitValue) :: [.catchAll (fun _ => unitValue)]) 0 =
      catchExceptionObject scenarioOutcome (excArg scenarioOutcome)
        [.catchAll (fun _ => unitValue)] 1) ∧
    (catchExceptionObject (ExitCondition.exitWithError 5 3 :
        ExitCondition Unit)
        (excArg (ExitCondition.exitWithError 5 3 : ExitCondition Unit))
        (.genericError (fun _ _ => unitValue) :: []) 0 =
      (if (unitValue).isRethrow then
        (ExitCondition.exitWithError 5 3, [.ranError 0 5 3])
       else (unitValue, [.ranError 0 5 3]))) ∧
    (catchExceptionObject rethrowOutcome (excArg rethrowOutcome)
        (.genericError (fun _ _ => unitValue) :: []) 0 =
      (if (unitValue).isRethrow then
        (rethrowOutcome, [.ranError 0 rethrowDomain 0])
       else (unitValue, [.ranError 0 rethrowDomain 0]))) := by
  have tVal := c4_amended_generic_error_applies_iff_domain_error_or_rethrow
    unitValue (fun _ _ => unitValue) []
    [.genericError (fun _ _ => unitValue)] 0 (by decide)
  have tExc := c4_amended_generic_error_applies_iff_domain_error_or_rethrow
    scenarioOutcome (fun _ _ => unitValue)
    [.catchAll (fun _ => unitValue)] [] 0 (by decide)
  have tErr := c4_amended_generic_error_applies_iff_domain_error_or_rethrow
    (ExitCondition.exitWithError 5 3 : ExitCondition Unit)
    (fun _ _ => unitValue) [] [] 0 (by decide)
  have tRet := c4_amended_generic_error_applies_iff_domain_error_or_rethrow
    rethrowOutcome (fun _ _ => unitValue) [] [] 0 (by decide)
  exact ⟨tVal.1 (by decide), tExc.2.1 (by decide),
    tErr.2.2 (Or.inl (by decide)), tRet.2.2 (Or.inr (by decide))⟩

/-- C5 (amended): a clause declared for a domain-value type `E` whose
registered domain object has address `dm` applies exactly when the
dispatched (failed) outcome is in the `DomainError` or `Rethrow` state
and its stored domain pointer is identical to `dm` (first conjunct); a
dispatched `Rethrow` outcome carries the internal rethrow domain
pointer, so only a clause for the `rethrow_error` code type can match
it.  When it applies, the clause is invoked with the decoded stored code
(second conjunct); when it does not apply, dispatch proceeds to the next
clause (third conjunct).  Matching is domain-pointer identity, never
code equality: a clause for domain `A` never applies to an error of a
different domain `B`, even when the codes are numerically identical
(fourth conjunct). -/
theorem c5_amended_domain_value_applies_iff_identical_domain
    {α : Type} (cond : ExitCondition α) (dm A B : Nat) (codeB : Int)
    (body bodyA : Int → ExitCondition α) (cls : List (Clause α))
    (idx : Nat)
    (hwf : cond.isExc = true → cond.excPayload.isSome = true)
    (hfail : cond.failure = true) (hAB : A ≠ B) :
    (applies (excArg cond) cond (.domainValue dm body) = true ↔
      ((stateOf cond = .domainError ∨ stateOf cond = .rethrow) ∧
        cond.errorDomain = some dm)) ∧
    (cond.errorDomain = some dm → dm ≠ excDomain →
      catchExceptionObject cond (excArg cond)
          (.domainValue dm body :: cls) idx =
        (if (body cond.errCode).isRethrow then
          (cond, [.ranDomainValue idx cond.errCode])
         else (body cond.errCode, [.ranDomainValue idx cond.errCode]))) ∧
    (applies (excArg cond) cond (.domainValue dm body) = false →
      catchExceptionObject cond (excArg cond)
          (.domainValue dm body :: cls) idx =
        catchExceptionObject cond (excArg cond) cls (idx + 1)) ∧
    (applies (excArg (ExitCondition.exitWithError B codeB :
          ExitCondition α)) (ExitCondition.exitWithError B codeB)
        (.domainValue A bodyA) = false) := by
  obtain ⟨dcur, hdcur⟩ : ∃ dcur, cond.errorDomain = some dcur := by
    cases hdd : cond.errorDomain with
    | none => simp [ExitCondition.failure, hdd] at hfail
    | some dcur => exact ⟨dcur, rfl⟩
  have hdoz : cond.domainOrZero = dcur := by
    simp [ExitCondition.domainOrZero, hdcur]
  refine ⟨?_, ?_, ?_, ?_⟩
  · constructor
    · intro happ
      simp only [applies, Bool.and_eq_true] at happ
      obtain ⟨hexn, hdm⟩ := happ
      have hdm' : cond.domainOrZero = dm := by simpa using hdm
      have hnexc : dcur ≠ excDomain := by
        intro hcontra
        subst hcontra
        have hisexc : cond.isExc = true := by
          simp [ExitCondition.isExc, hdcur]
        obtain ⟨hh, hp⟩ : ∃ hh, cond.excPayload = some hh := by
          cases hp : cond.excPayload with
          | none => rw [hp] at hwf; simp [hisexc] at hwf
          | some hh => exact ⟨hh, rfl⟩
        rw [excArg, if_pos hisexc, hp] at hexn
        simp [Option.isNone] at hexn
      refine ⟨?_, by rw [hdcur, ← hdm', hdoz]⟩
      by_cases hrt : dcur = rethrowDomain
      · exact Or.inr ((statePred_iff_stateOf cond .rethrow).mp
          (by simp only [statePred]; rw [hdcur, hrt]))
      · exact Or.inl ((statePred_iff_stateOf cond .domainError).mp
          (by simp only [statePred]; exact ⟨dcur, hdcur, hnexc, hrt⟩))
    · rintro ⟨hst, hdm⟩
      have hcd : dcur = dm := by
        rw [hdcur] at hdm
        exact Option.some.inj hdm
      have hnexc : dcur ≠ excDomain := by
        rcases hst with hst | hst
        · have := (statePred_iff_stateOf cond .domainError).mpr hst
          simp only [statePred] at this
          obtain ⟨dm', hdm', h1, _⟩ := this
          rw [hdcur] at hdm'
          rw [Option.some.inj hdm']
          exact h1
        · have := (statePred_iff_stateOf cond .rethrow).mpr hst
          simp only [statePred] at this
          rw [hdcur] at this
          rw [Option.some.inj this]
          decide
      have harg : excArg cond = none := by
        simp [excArg, ExitCondition.isExc, hdcur, hnexc]
      simp [applies, harg, hdoz, hcd]
  · intro hdm hnexc
    have hcd : dcur = dm := by
      rw [hdcur] at hdm
      exact Option.some.inj hdm
    have harg : excArg cond = none := by
      simp [excArg, ExitCondition.isExc, hdcur, hcd ▸ hnexc]
    rw [harg]
    simp only [catchExceptionObject]
    rw [if_neg]
    simp [Option.isSome, hdoz, hcd]
  · intro happ
    simp only [applies, Bool.and_eq_false_iff] at happ
    rcases happ with happ | happ
    · cases harg : excArg cond with
      | none => rw [harg] at happ; simp [Option.isNone] at happ
      | some hh =>
        simp only [catchExceptionObject]
        rw [if_pos]
        simp [Option.isSome]
    · have hne : cond.domainOrZero ≠ dm := by simpa using happ
      simp only [catchExceptionObject]
      rw [if_pos]
      simp [hne]
  · have harg : excArg (ExitCondition.exitWithError B codeB :
        ExitCondition α) = none := by
      simp [excArg, ExitCondition.excPayload, ExitCondition.exitWithError]
    have hdz : (ExitCondition.exitWithError B codeB :
        ExitCondition α).domainOrZero = B := by
      simp [ExitCondition.domainOrZero, ExitCondition.exitWithError]
    simp [applies, harg, hdz, Ne.symm hAB]

/-- Witness for C5 (amended): for a domain error with domain pointer 5
and code 3, a clause for domain 5 applies (the iff instance) and is
invoked with the decoded code 3; a clause for domain 6 does not apply
and is skipped; and a clause for domain 6 never applies to the domain-5
error even though codes can be numerically identical. -/
theorem c5_amended_witness :
    (applies
        (excArg (ExitCondition.exitWithError 5 3 : ExitCondition Unit))
        (ExitCondition.exitWithError 5 3)
        (.domainValue 5 (fun _ => unitValue)) = true ↔
      ((stateOf (ExitCondition.exitWithError 5 3 :
            ExitCondition Unit) = .domainError ∨
        stateOf (ExitCondition.exitWithError 5 3 :
            ExitCondition Unit) = .rethrow) ∧
        (ExitCondition.exitWithError 5 3 :
            ExitCondition Unit).errorDomain = some 5)) ∧
    (catchExceptionObject
        (ExitCondition.exitWithError 5 3 : ExitCondition Unit)
        (excArg (ExitCondition.exitWithError 5 3 : ExitCondition Unit))
        (.domainValue 5 (fun _ => unitValue) :: []) 0 =
      (if (unitValue).isRethrow then
        (ExitCondition.exitWithError 5 3, [.ranDomainValue 0 3])
       else (unitValue, [.ranDomainValue 0 3]))) ∧
    (catchExceptionObject
        (ExitCondition.exitWithError 5 3 : ExitCondition Unit)
        (excArg (ExitCondition.exitWithError 5 3 : ExitCondition Unit))
        (.domainValue 6 (fun _ => unitValue) :: []) 0 =
      catchExceptionObject
        (ExitCondition.exitWithError 5 3 : ExitCondition Unit)
        (excArg (ExitCondition.exitWithError 5 3 : ExitCondition Unit))
        [] 1) ∧
    (applies
        (excArg (ExitCondition.exitWithError 5 3 : ExitCondition Unit))
        (ExitCondition.exitWithError 5 3)
        (.domainValue 6 (fun _ => unitValue)) = false) := by
  have t5 := c5_amended_domain_value_applies_iff_identical_domain
    (ExitCondition.exitWithError 5 3 : ExitCondition Unit) 5 6 5 3
    (fun _ => unitValue) (fun _ => unitValue) [] 0
    (by decide) (by decide) (by decide)
  have t6 := c5_amended_domain_value_applies_iff_identical_domain
    (ExitCondition.exitWithError 5 3 : ExitCondition Unit) 6 6 5 3
    (fun _ => unitValue) (fun _ => unitValue) [] 0
    (by decide) (by decide) (by decide)
  exact ⟨t5.1, t5.2.1 (by decide) (by decide), t6.2.2.1 (by decide),
    t5.2.2.2⟩

/-- Disposal counts add over trace concatenation. -/
theorem countU_append (u : Nat) (l1 l2 : List Event) :
    countU u (l1 ++ l2) = countU u l1 + countU u l2 := by
  induction l1 with
  | nil => simp [countU]
  | cons e rest ih =>
    cases e <;> simp [countU, ih, Nat.add_assoc]

/-- A condition that avoids `u` is never reported as owning `u`. -/
theorem ownsU_eq_false_of_avoids {α : Type} (u : Nat)
    (c : ExitCondition α) (hv : CondAvoids u c) : ownsU u c = false := by
  simp only [CondAvoids] at hv
  simp [ownsU, hv]

/-- Dispatching a condition that owns the handle `u`, with clause bodies
that avoid `u`, either returns the original condition untouched with no
disposal of `u`, or disposes `u` exactly once and returns a condition
avoiding `u`. -/
theorem catchExceptionObject_owner {α : Type} (u : Nat)
    (cond : ExitCondition α) (h : ExcObject)
    (hpay : cond.payload = .exc h) (huid : h.uid = u) :
    ∀ (cls : List (Clause α)) (idx : Nat),
      (∀ cl ∈ cls, ClauseFresh u cl) →
      ((catchExceptionObject cond (some h) cls idx).1 = cond ∧
        countU u (catchExceptionObject cond (some h) cls idx).2 = 0) ∨
      (CondAvoids u (catchExceptionObject cond (some h) cls idx).1 ∧
        countU u (catchExceptionObject cond (some h) cls idx).2 = 1) := by
  have hcu : condExcUid cond = u := by simp [condExcUid, hpay, huid]
  intro cls
  induction cls with
  | nil => intro idx _; exact Or.inl ⟨rfl, rfl⟩
  | cons c rest ih =>
    intro idx hall
    have hc := hall c (List.mem_cons_self c rest)
    have hrest := fun cl hm => hall cl (List.mem_cons_of_mem c hm)
    cases c with
    | catchAll body =>
      simp only [ClauseFresh] at hc
      by_cases hr : (body ()).isRethrow
      · exact Or.inl (by simp [catchExceptionObject, hr, countU])
      · refine Or.inr ?_
        simp only [catchExceptionObject, hr, Bool.false_eq_true, if_false]
        exact ⟨hc (), by simp [countU, hcu]⟩
    | genericError body =>
      simp only [catchExceptionObject]
      exact ih (idx + 1) hrest
    | domainValue dm body =>
      simp only [catchExceptionObject, Option.isSome_some, Bool.true_or,
        if_true]
      exact ih (idx + 1) hrest
    | exceptionType X body =>
      simp only [ClauseFresh] at hc
      cases hdc : dynCast X h.addr h.tinfo with
      | none =>
        simp only [catchExceptionObject, hdc]
        exact ih (idx + 1) hrest
      | some addr =>
        by_cases hr : (body addr).isRethrow
        · exact Or.inl (by simp [catchExceptionObject, hdc, hr, countU])
        · refine Or.inr ?_
          simp only [catchExceptionObject, hdc, hr, Bool.false_eq_true,
            if_false]
          exact ⟨hc addr, by simp [countU, hcu]⟩

/-- Dispatching a condition that avoids the handle `u` (whenever the
dynamic-object argument is non-null, the disposal would target a handle
other than `u`), with clause bodies that avoid `u`, never disposes `u`
and returns a condition avoiding `u`. -/
theorem catchExceptionObject_avoider {α : Type} (u : Nat)
    (cond : ExitCondition α) (ex : Option ExcObject)
    (havoid : CondAvoids u cond)
    (hne : ∀ h', ex = some h' → condExcUid cond ≠ u) :
    ∀ (cls : List (Clause α)) (idx : Nat),
      (∀ cl ∈ cls, ClauseFresh u cl) →
      countU u (catchExceptionObject cond ex cls idx).2 = 0 ∧
      CondAvoids u (catchExceptionObject cond ex cls idx).1 := by
  intro cls
  induction cls with
  | nil => intro idx _; exact ⟨rfl, havoid⟩
  | cons c rest ih =>
    intro idx hall
    have hc := hall c (List.mem_cons_self c rest)
    have hrest := fun cl hm => hall cl (List.mem_cons_of_mem c hm)
    cases c with
    | catchAll body =>
      simp only [ClauseFresh] at hc
      by_cases hr : (body ()).isRethrow
      · constructor
        · simp [catchExceptionObject, hr, countU]
        · simp only [catchExceptionObject, hr, if_true]
          exact havoid
      · cases ex with
        | none =>
          simp only [catchExceptionObject, hr, Bool.false_eq_true,
            if_false]
          exact ⟨by simp [countU], hc ()⟩
        | some h' =>
          simp only [catchExceptionObject, hr, Bool.false_eq_true,
            if_false]
          exact ⟨by simp [countU, hne h' rfl], hc ()⟩
    | genericError body =>
      cases ex with
      | some h' =>
        simp only [catchExceptionObject]
        exact ih (idx + 1) hrest
      | none =>
        simp only [ClauseFresh] at hc
        by_cases hr : (body cond.domainOrZero cond.errCode).isRethrow
        · constructor
          · simp [catchExceptionObject, hr, countU]
          · simp only [catchExceptionObject, hr, if_true]
            exact havoid
        · simp only [catchExceptionObject, hr, Bool.false_eq_true,
            if_false]
          exact ⟨by simp [countU], hc _ _⟩
    | domainValue dm body =>
      cases ex with
      | some h' =>
        simp only [catchExceptionObject]
        rw [if_pos (by simp)]
        exact ih (idx + 1) hrest
      | none =>
        by_cases hdm : cond.domainOrZero = dm
        · simp only [ClauseFresh] at hc
          simp only [catchExceptionObject]
          rw [if_neg (by simp [hdm])]
          by_cases hr : (body cond.errCode).isRethrow
          · constructor
            · simp [hr, countU]
            · simp only [hr, if_true]
              exact havoid
          · simp only [hr, Bool.false_eq_true, if_false]
            exact ⟨by simp [countU], hc _⟩
        · simp only [catchExceptionObject]
          rw [if_pos (by simp [hdm])]
          exact ih (idx + 1) hrest
    | exceptionType X body =>
      cases ex with
      | none =>
        simp only [catchExceptionObject]
        exact ih (idx + 1) hrest
      | some h' =>
        simp only [ClauseFresh] at hc
        cases hdc : dynCast X h'.addr h'.tinfo with
        | none =>
          simp only [catchExceptionObject, hdc]
          exact ih (idx + 1) hrest
        | some addr =>
          by_cases hr : (body addr).isRethrow
          · constructor
            · simp [catchExceptionObject, hdc, hr, countU]
            · simp only [catchExceptionObject, hdc, hr, if_true]
              exact havoid
          · simp only [catchExceptionObject, hdc, hr, Bool.false_eq_true,
              if_false]
            exact ⟨by simp [countU, hne h' rfl], hc addr⟩

/-- `catches` on a condition owning the handle `u`, with fresh clause
bodies, either returns the original condition with no disposal of `u`
(no clause matched, or the matching clause rethrew), or disposes `u`
exactly once and returns a condition that no longer references it. -/
theorem catchesD_owner {α : Type} (u : Nat) (cond : ExitCondition α)
    (h : ExcObject) (hdom : cond.errorDomain = some excDomain)
    (hpay : cond.payload = .exc h) (huid : h.uid = u)
    (cls : List (Clause α)) (hf : ∀ cl ∈ cls, ClauseFresh u cl) :
    ((catchesD cond cls).1 = cond ∧
      countU u (catchesD cond cls).2 = 0) ∨
    (CondAvoids u (catchesD cond cls).1 ∧
      countU u (catchesD cond cls).2 = 1) := by
  have hsucc : cond.success = false := by
    simp [ExitCondition.success, hdom]
  have harg : excArg cond = some h := by
    simp [excArg, ExitCondition.isExc, hdom, ExitCondition.excPayload,
      hpay]
  simp only [catchesD, hsucc, Bool.false_eq_true, if_false, harg]
  exact catchExceptionObject_owner u cond h hpay huid cls 0 hf

/-- `catches` on a condition that does not reference the handle `u`,
with fresh clause bodies, never disposes `u` and returns a condition
that does not reference it. -/
theorem catchesD_avoider {α : Type} (u : Nat) (cond : ExitCondition α)
    (havoid : CondAvoids u cond) (cls : List (Clause α))
    (hf : ∀ cl ∈ cls, ClauseFresh u cl) :
    countU u (catchesD cond cls).2 = 0 ∧
    CondAvoids u (catchesD cond cls).1 := by
  by_cases hs : cond.success
  · simp only [catchesD, hs, if_true]
    exact ⟨rfl, havoid⟩
  · simp only [catchesD, hs, Bool.false_eq_true, if_false]
    refine catchExceptionObject_avoider u cond (excArg cond) havoid
      ?_ cls 0 hf
    intro h' hex
    simp only [excArg] at hex
    by_cases hisexc : cond.isExc
    · rw [if_pos hisexc] at hex
      have hp : cond.payload = .exc h' := by
        cases hpp : cond.payload with
        | exc hh =>
          simp only [ExitCondition.excPayload, hpp, Option.some.injEq]
            at hex
          rw [hex]
        | code n => simp [ExitCondition.excPayload, hpp] at hex
        | value v => simp [ExitCondition.excPayload, hpp] at hex
      simp only [CondAvoids, payloadUid, hp] at havoid
      simp only [condExcUid, hp]
      simpa using havoid
    · rw [if_neg hisexc] at hex
      cases hex

/-- Propagation preserves an exception condition's discriminant and
handle payload: the handle is moved, not destroyed or duplicated. -/
theorem exitPropagate_exc {α β : Type} (c : ExitCondition α)
    (h : ExcObject) (hdom : c.errorDomain = some excDomain)
    (hpay : c.payload = .exc h) :
    (ExitCondition.exitPropagate c : ExitCondition β).errorDomain =
      some excDomain ∧
    (ExitCondition.exitPropagate c : ExitCondition β).payload = .exc h := by
  have hisexc : c.isExc = true := by simp [ExitCondition.isExc, hdom]
  simp [ExitCondition.exitPropagate, hisexc, hpay, hdom]

/-- Propagation of a condition that does not reference `u` yields a
condition that does not reference `u`. -/
theorem exitPropagate_avoids {α β : Type} (u : Nat)
    (c : ExitCondition α) (hv : CondAvoids u c) :
    CondAvoids u (ExitCondition.exitPropagate c : ExitCondition β) := by
  by_cases hisexc : c.isExc
  · cases hp : c.payload with
    | exc h' =>
      simp only [CondAvoids, payloadUid, hp] at hv
      simp only [CondAvoids, ExitCondition.exitPropagate, hisexc,
        if_true, hp, payloadUid]
      exact hv
    | code n =>
      simp [CondAvoids, ExitCondition.exitPropagate, hisexc, hp,
        payloadUid]
    | value v =>
      simp [CondAvoids, ExitCondition.exitPropagate, hisexc, hp,
        payloadUid]
  · simp [CondAvoids, ExitCondition.exitPropagate, hisexc, payloadUid]

/-- Running lifecycle steps from a condition that does not reference
the handle `u` never disposes `u` and ends in a condition that does not
reference it. -/
theorem lifeRun_avoider {α : Type} (u : Nat) :
    ∀ (steps : List (LifeStep α)) (cond : ExitCondition α),
      StepsFresh u steps → CondAvoids u cond →
      countU u (lifeRun cond steps).2 = 0 ∧
      CondAvoids u (lifeRun cond steps).1 := by
  intro steps
  induction steps with
  | nil => intro cond _ hv; exact ⟨rfl, hv⟩
  | cons s rest ih =>
    intro cond hf hv
    cases s with
    | propagate =>
      simp only [StepsFresh] at hf
      simp only [lifeRun]
      exact ih _ hf (exitPropagate_avoids u cond hv)
    | dispatch cls =>
      simp only [StepsFresh] at hf
      obtain ⟨hfc, hfr⟩ := hf
      have hd := catchesD_avoider u cond hv cls hfc
      have hr := ih _ hfr hd.2
      simp only [lifeRun]
      rw [countU_append, hd.1, hr.1]
      exact ⟨rfl, hr.2⟩

/-- Running lifecycle steps from a condition that owns the handle `u`,
with fresh clause bodies throughout, the total number of disposals of
`u` plus one for the final condition still owning `u` is exactly one:
the handle is disposed exactly once if some dispatch consumed it, and
not at all if the final condition still owns it. -/
theorem lifeRun_owner {α : Type} (u : Nat) :
    ∀ (steps : List (LifeStep α)) (cond : ExitCondition α)
      (h : ExcObject),
      StepsFresh u steps →
      cond.errorDomain = some excDomain → cond.payload = .exc h →
      h.uid = u →
      countU u (lifeRun cond steps).2 +
        (if ownsU u (lifeRun cond steps).1 then 1 else 0) = 1 := by
  intro steps
  induction steps with
  | nil =>
    intro cond h _ hdom hpay huid
    have howns : ownsU u cond = true := by
      simp [ownsU, ExitCondition.isExc, hdom, payloadUid, hpay, huid]
    simp [lifeRun, countU, howns]
  | cons s rest ih =>
    intro cond h hf hdom hpay huid
    cases s with
    | propagate =>
      simp only [StepsFresh] at hf
      simp only [lifeRun]
      obtain ⟨hdom2, hpay2⟩ :=
        exitPropagate_exc (β := α) cond h hdom hpay
      exact ih _ h hf hdom2 hpay2 huid
    | dispatch cls =>
      simp only [StepsFresh] at hf
      obtain ⟨hfc, hfr⟩ := hf
      simp only [lifeRun]
      rcases catchesD_owner u cond h hdom hpay huid cls hfc with
        ⟨heq, hcnt⟩ | ⟨hav, hcnt⟩
      · rw [countU_append, hcnt]
        simp only [heq]
        rw [Nat.zero_add]
        exact ih cond h hfr hdom hpay huid
      · have hrest := lifeRun_avoider u rest (catchesD cond cls).1
          hfr hav
        have howns : ownsU u (lifeRun (catchesD cond cls).1 rest).1 =
            false := ownsU_eq_false_of_avoids u _ hrest.2
        rw [countU_append, hcnt, hrest.1]
        simp [howns]

/-- C8 (amended): over the whole lifetime of an exception handle —
created by `exit_with_exception`, moved by propagation and rethrow
through any number of nested scopes, possibly consumed by a dispatch —
the payload deleter runs at most once, and exactly once unless the
final outcome still owns the handle.  When the final outcome still owns
it (the failure was dropped unmatched at the top level), the deleter
never runs at all: `~exit_condition` for the raw-pointer exception
member is trivial, so the payload leaks rather than being destroyed.
Ownership transfers and is never duplicated: the disposal count never
exceeds one. -/
theorem c8_amended_handle_disposed_exactly_once_unless_still_owned
    {α : Type} (h : ExcObject) (steps : List (LifeStep α))
    (hf : StepsFresh h.uid steps) :
    countU h.uid
        (lifeRun (ExitCondition.exitWithException h : ExitCondition α)
          steps).2 +
      (if ownsU h.uid
          (lifeRun (ExitCondition.exitWithException h : ExitCondition α)
            steps).1 then 1 else 0) = 1 :=
  lifeRun_owner h.uid steps _ h hf rfl rfl rfl

/-- Witness for C8 (amended): the runtime-error handle, propagated once
and then dispatched into a catch-all, is disposed exactly once and the
final outcome no longer owns it. -/
theorem c8_amended_witness :
    countU 7
        (lifeRun (ExitCondition.exitWithException runtimeErrorHandle :
            ExitCondition Unit)
          [.propagate, .dispatch [.catchAll (fun _ => unitValue)]]).2 +
      (if ownsU 7
          (lifeRun (ExitCondition.exitWithException runtimeErrorHandle :
              ExitCondition Unit)
            [.propagate,
              .dispatch [.catchAll (fun _ => unitValue)]]).1
        then 1 else 0) = 1 := by
  refine c8_amended_handle_disposed_exactly_once_unless_still_owned
    runtimeErrorHandle
    [.propagate, .dispatch [.catchAll (fun _ => unitValue)]] ?_
  refine ⟨?_, trivial⟩
  intro cl hm
  rw [List.mem_singleton] at hm
  subst hm
  intro x
  show CondAvoids runtimeErrorHandle.uid unitValue
  simp [CondAvoids, payloadUid, unitValue, ExitCondition.exitWithValue]

/-- C8 counterexample: a complete lifetime that ends with the failure
dropped unmatched at the top level runs the payload destructor zero
times, not once.  The runtime-error handle is propagated once, then
dispatched against a single non-matching domain clause (no catch-all),
and the final outcome — dropped at top level, where `~exit_condition`
runs no deleter for the raw `exception_object *` member — still owns
the handle, with no disposal anywhere in the trace. -/
theorem c8_counterexample_top_level_drop_never_destroys :
    countU 7
        (lifeRun (ExitCondition.exitWithException runtimeErrorHandle :
            ExitCondition Unit)
          [.propagate,
            .dispatch [.domainValue 5 (fun _ => unitValue)]]).2 = 0 ∧
    ownsU 7
        (lifeRun (ExitCondition.exitWithException runtimeErrorHandle :
            ExitCondition Unit)
          [.propagate,
            .dispatch [.domainValue 5 (fun _ => unitValue)]]).1 =
      true := by
  decide

/-- Evaluating a computation emits only acquisition and release events:
no handler clause event can occur while frames are running or being torn
down. -/
theorem runComp_no_handler :
    ∀ (c : Comp) (held : List Nat) (e : Event),
      REvent.handler e ∉ (runComp c held).2 := by
  intro c
  induction c with
  | ret =>
    intro held e hmem
    rw [runComp] at hmem
    obtain ⟨r, _, hr⟩ := List.mem_map.mp hmem
    cases hr
  | raise h =>
    intro held e hmem
    rw [runComp] at hmem
    obtain ⟨r, _, hr⟩ := List.mem_map.mp hmem
    cases hr
  | acquire r rest ih =>
    intro held e hmem
    rw [runComp] at hmem
    rcases List.mem_cons.mp hmem with heq | htail
    · cases heq
    · exact ih (r :: held) e htail
  | awaitC inner rest ihInner ihRest =>
    intro held e hmem
    rw [runComp] at hmem
    cases hinner : runComp inner [] with
    | mk res trInner =>
      rw [hinner] at hmem
      cases res with
      | none =>
        rcases List.mem_append.mp hmem with hin | hout
        · exact ihInner [] e (by rw [hinner]; exact hin)
        · exact ihRest held e hout
      | some h =>
        rcases List.mem_append.mp hmem with hin | hout
        · exact ihInner [] e (by rw [hinner]; exact hin)
        · obtain ⟨r, _, hr⟩ := List.mem_map.mp hout
          cases hr

/-- C9: resource teardown strictly precedes handler invocation, and a
frame's resources are released in reverse order of acquisition.  First
conjunct: in the full trace of a `try_catch` — evaluation of the
computation (with all frame teardown) followed by the dispatch of the
resulting failure — every release event occurs strictly before every
handler-clause event, so all local resources of the frames between the
failure point and the dispatch are fully released before any clause body
runs and before the exception payload is read.  Second conjunct: a frame
that acquires the resources `rs` in order and then fails releases
exactly `rs` reversed (followed by the enclosing frames' resources, in
their own reverse order), before the failure escapes. -/
theorem c9_teardown_precedes_handler_invocation
    (c : Comp) (clauses : List (Clause Unit)) (i j r : Nat) (e : Event)
    (rs held : List Nat) (h : ExcObject)
    (hi : (tryCatchComp c clauses)[i]? = some (.released r))
    (hj : (tryCatchComp c clauses)[j]? = some (.handler e)) :
    i < j ∧
    runComp (acquiresThenRaise rs h) held =
      (some h, rs.map .acquired ++ (rs.reverse ++ held).map .released) := by
  constructor
  · cases hrun : runComp c [] with
    | mk res tr =>
      have hnh : ∀ ev : Event, REvent.handler ev ∉ tr := by
        intro ev hmem
        exact runComp_no_handler c [] ev (by rw [hrun]; exact hmem)
      cases res with
      | none =>
        have htc : tryCatchComp c clauses = tr := by
          rw [tryCatchComp, hrun]
        rw [htc] at hj
        exact absurd (List.getElem?_mem hj) (hnh e)
      | some hx =>
        have htc : tryCatchComp c clauses =
            tr ++ (List.map REvent.handler
              (catchesD (ExitCondition.exitWithException hx)
                clauses).2) := by
          rw [tryCatchComp, hrun]
        rw [htc] at hi hj
        have hjlen : tr.length ≤ j := by
          by_contra hlt
          rw [not_le] at hlt
          rw [List.getElem?_append_left hlt] at hj
          exact absurd (List.getElem?_mem hj) (hnh e)
        have hilen : i < tr.length := by
          by_contra hge
          rw [not_lt] at hge
          rw [List.getElem?_append_right hge, List.getElem?_map] at hi
          cases hm : ((catchesD (ExitCondition.exitWithException hx) clauses).2)[i - tr.length]? with
          | none => rw [hm] at hi; simp at hi
          | some ev => rw [hm] at hi; simp at hi
        omega
  · induction rs generalizing held with
    | nil => simp [acquiresThenRaise, runComp]
    | cons rr rss ih =>
      simp only [acquiresThenRaise, List.foldr_cons] at ih ⊢
      rw [runComp]
      rw [ih (rr :: held)]
      simp [List.append_assoc]

/-- Witness for C9: the computation that acquires resources 1 then 2 and
fails, dispatched into a catch-all, produces the trace
acquire 1, acquire 2, release 2, release 1, then the handler events —
the release at position 2 precedes the handler event at position 4, and
the straight-line frame releases 2 then 1, the reverse of acquisition
order. -/
theorem c9_witness :
    2 < 4 ∧
    runComp (acquiresThenRaise [1, 2] runtimeErrorHandle) [] =
      (some runtimeErrorHandle,
        ([1, 2].map .acquired ++
          (([1, 2].reverse ++ []).map .released) :
          List REvent)) :=
  c9_teardown_precedes_handler_invocation
    (.acquire 1 (.awaitC (.acquire 2 (.raise runtimeErrorHandle)) .ret))
    [.catchAll (fun _ => unitValue)] 2 4 2 (.ranCatchAll 0)
    [1, 2] [] runtimeErrorHandle (by decide) (by decide)

end ZppThrowing
